import Mathlib

/-!
Verification development for the AR lipstick try-on application
(`script.js`).  The definitions below are a shallow embedding of the
landmark-to-mask compositing pipeline of that program:

* `ColorUtils.hexToRgb` / `ColorUtils.rgbToHex` embed the color string
  utilities (the regular expression parse and the JS
  `toString(16).slice(1)` conversion);
* `drawLipContour` embeds `ARLipstickApp.drawLipContour` (polygon path
  construction from landmark indices, filled with the canvas default
  non-zero winding rule); an out-of-range landmark index gives JS
  `undefined`, and reading `.x` of it throws a `TypeError`, embedded as
  `Except.error JsErr.typeError`;
* `composite` / `drawLipstick` embed `ARLipstickApp.drawLipstick`: the
  off-screen lip canvas (fill contour, `source-in` colored fill at
  `globalAlpha = opacity`, then the `filter` assignment), followed by
  `multiply`-blended `drawImage` at `globalAlpha = opacity` on the main
  context and the final reset of the compositing state;
* `processFaceMeshResults` embeds `ARLipstickApp.processFaceMeshResults`
  (clear the canvas, then draw the lipstick on the first face when
  enabled);
* `selectPresetColor` embeds `ARLipstickApp.selectPresetColor`.

Pixels are RGBA values with rational channels normalized to `[0,1]`; a
frame is a function from rational canvas coordinates to a pixel, and the
canvas blending formulas are the standard HTML canvas compositing
equations (source-over compositing, `source-in`, and the `multiply`
blend mode).  The CSS `blur(..)` filter kernel is external to the
program, so the pipeline is parametrized by an arbitrary blur function
`G : ℕ → Frame → Frame`.
-/

namespace BeautyAR

/-! ## Color utilities (`ColorUtils`) -/

/-- An RGB triplet of byte values, the result shape of `hexToRgb`. -/
structure Rgb where
  r : Nat
  g : Nat
  b : Nat
deriving DecidableEq, Repr

/-- A character matched by the regex class `[a-f\d]` under the `i` flag. -/
def isHexDig (c : Char) : Bool :=
  ('0' ≤ c && c ≤ '9') || ('a' ≤ c && c ≤ 'f') || ('A' ≤ c && c ≤ 'F')

/-- Numeric value of a hex digit, as `parseInt(_, 16)` assigns it. -/
def hexVal (c : Char) : Nat :=
  if '0' ≤ c && c ≤ '9' then c.toNat - 48
  else if 'a' ≤ c && c ≤ 'f' then c.toNat - 87
  else c.toNat - 55

/-- `parseInt` of a two-hex-digit group. -/
def hexPair (c1 c2 : Char) : Nat := 16 * hexVal c1 + hexVal c2

/-- Match the three capture groups `([a-f\d]{2})([a-f\d]{2})([a-f\d]{2})$`
against the remaining characters. -/
def sixHex : List Char → Option Rgb
  | [c1, c2, c3, c4, c5, c6] =>
    if isHexDig c1 && isHexDig c2 && isHexDig c3 && isHexDig c4 &&
        isHexDig c5 && isHexDig c6 then
      some ⟨hexPair c1 c2, hexPair c3 c4, hexPair c5 c6⟩
    else none
  | _ => none

/-- `ColorUtils.hexToRgb`: the regex `/^#?([a-f\d]{2})([a-f\d]{2})([a-f\d]{2})$/i`
with `parseInt(_, 16)` on the groups; `null` (here `none`) on failure. -/
def hexToRgb (s : String) : Option Rgb :=
  match s.data with
  | '#' :: rest => sixHex rest
  | l => sixHex l

/-- Fuel-driven positional digit expansion used by `jsHexString`. -/
def hexAux : Nat → Nat → List Char → List Char
  | 0, _, acc => acc
  | fuel + 1, n, acc =>
    if n < 16 then Nat.digitChar n :: acc
    else hexAux fuel (n / 16) (Nat.digitChar (n % 16) :: acc)

/-- JS `Number.prototype.toString(16)` on a nonnegative integer: the
base-16 positional representation, lowercase digits, no leading zeros. -/
def jsHexString (n : Nat) : List Char := hexAux (n + 1) n []

/-- `ColorUtils.rgbToHex`: `"#" + ((1 << 24) + (r << 16) + (g << 8) + b).toString(16).slice(1)`.
All call sites pass byte values, which stay far below the 32-bit range of
the JS shift operators, so plain natural arithmetic is exact. -/
def rgbToHex (r g b : Nat) : String :=
  ⟨'#' :: (jsHexString (2 ^ 24 + r * 2 ^ 16 + g * 2 ^ 8 + b)).drop 1⟩

/-! ## Geometry: landmarks, polygons and the non-zero winding fill -/

/-- A detected facial landmark, coordinates normalized to `[0,1]`. -/
structure Landmark where
  x : ℚ
  y : ℚ
deriving DecidableEq

/-- A point of the canvas pixel plane. -/
structure Pt where
  x : ℚ
  y : ℚ
deriving DecidableEq

/-- Cross product of `b - a` with `q - a`, the orientation test used by
the winding computation. -/
def cross2 (a b q : Pt) : ℚ :=
  (b.x - a.x) * (q.y - a.y) - (b.y - a.y) * (q.x - a.x)

/-- Signed crossing contribution of the directed edge `a → b` to the
winding number of a horizontal ray from `q`. -/
def edgeWind (a b q : Pt) : Int :=
  if a.y ≤ q.y ∧ q.y < b.y ∧ 0 < cross2 a b q then 1
  else if b.y ≤ q.y ∧ q.y < a.y ∧ cross2 a b q < 0 then -1
  else 0

/-- Directed edge list of the closed polygon through `pts`, closing back
from the last point to the first (the effect of `ctx.closePath()`). -/
def closedEdges (pts : List Pt) : List (Pt × Pt) :=
  match pts with
  | [] => []
  | p :: _ => List.zip pts (pts.drop 1 ++ [p])

/-- Winding number of the closed polygon through `pts` around `q`. -/
def winding (pts : List Pt) (q : Pt) : Int :=
  ((closedEdges pts).map (fun e => edgeWind e.1 e.2 q)).sum

/-- `q` lies on the closed segment from `a` to `b`. -/
def onSegment (a b q : Pt) : Prop :=
  cross2 a b q = 0 ∧ min a.x b.x ≤ q.x ∧ q.x ≤ max a.x b.x ∧
    min a.y b.y ≤ q.y ∧ q.y ≤ max a.y b.y

instance (a b q : Pt) : Decidable (onSegment a b q) := by
  unfold onSegment; infer_instance

/-- `q` lies on the boundary of the closed polygon through `pts`. -/
def onBoundary (pts : List Pt) (q : Pt) : Prop :=
  ∃ e ∈ closedEdges pts, onSegment e.1 e.2 q

instance (pts : List Pt) (q : Pt) : Decidable (onBoundary pts q) := by
  unfold onBoundary; infer_instance

/-- `q` is strictly inside the polygon filled by the non-zero winding
rule: nonzero winding number and off the boundary. -/
def strictlyInside (pts : List Pt) (q : Pt) : Prop :=
  winding pts q ≠ 0 ∧ ¬ onBoundary pts q

instance (pts : List Pt) (q : Pt) : Decidable (strictlyInside pts q) := by
  unfold strictlyInside; infer_instance

/-- `q` is strictly outside the polygon filled by the non-zero winding
rule: zero winding number and off the boundary. -/
def strictlyOutside (pts : List Pt) (q : Pt) : Prop :=
  winding pts q = 0 ∧ ¬ onBoundary pts q

/-! ## Pixels, frames and canvas compositing -/

/-- An RGBA pixel, channels as rationals normalized to `[0,1]`
(straight, non-premultiplied alpha). -/
structure Rgba where
  r : ℚ
  g : ℚ
  b : ℚ
  a : ℚ
deriving DecidableEq

/-- The fully transparent pixel a fresh / cleared canvas holds. -/
def Rgba.transparent : Rgba := ⟨0, 0, 0, 0⟩

/-- Opaque white. -/
def Rgba.white : Rgba := ⟨1, 1, 1, 1⟩

/-- A frame buffer: a pixel for every canvas coordinate. -/
abbrev Frame := ℚ → ℚ → Rgba

/-- A coverage mask: a coverage value for every canvas coordinate. -/
abbrev Mask := ℚ → ℚ → ℚ

/-- The `globalCompositeOperation` values this program uses. -/
inductive CompOp where
  | sourceOver
  | sourceIn
  | multiply
deriving DecidableEq

/-- The `filter` values this program uses: `none` or `blur(Npx)`. -/
inductive CanvasFilter where
  | noFilter
  | blur (px : ℕ)
deriving DecidableEq

/-- Canvas source-over compositing of a (blended) source pixel onto a
backdrop pixel: result alpha `αs + αb (1 - αs)`, color the alpha-weighted
mix of the blended source color `(1-αb)·Cs + αb·B(Cb,Cs)` and the
backdrop color, un-premultiplied by the result alpha. -/
def mixSrcOver (src dst : Rgba) (bl : ℚ → ℚ → ℚ) : Rgba :=
  let ar := src.a + dst.a * (1 - src.a)
  let f := fun cs cb =>
    if ar = 0 then 0
    else (src.a * ((1 - dst.a) * cs + dst.a * bl cb cs) +
          (1 - src.a) * dst.a * cb) / ar
  ⟨f src.r dst.r, f src.g dst.g, f src.b dst.b, ar⟩

/-- Per-pixel canvas compositing for the operations the program uses:
`source-over` (no blend), `multiply` (per-channel product blend), and the
Porter-Duff `source-in` (source color, intersected alpha). -/
def pdCompose (op : CompOp) (src dst : Rgba) : Rgba :=
  match op with
  | .sourceOver => mixSrcOver src dst (fun _ cs => cs)
  | .multiply => mixSrcOver src dst (fun cb cs => cb * cs)
  | .sourceIn => ⟨src.r, src.g, src.b, src.a * dst.a⟩

/-- CSS color parsing of a canvas `fillStyle` string, for the 6-hex-digit
colors this program assigns (the only form it uses); an unparsable string
is modelled as opaque black. -/
def parseCSSColor (s : String) : Rgba :=
  match hexToRgb s with
  | some c => ⟨(c.r : ℚ) / 255, (c.g : ℚ) / 255, (c.b : ℚ) / 255, 1⟩
  | none => ⟨0, 0, 0, 1⟩

/-- State of the off-screen lip canvas context (`lipCtx`). -/
structure LipCtx where
  pixels : Frame
  gco : CompOp
  fillStyle : String
  alpha : ℚ
  filt : CanvasFilter

/-- A freshly created canvas context: transparent pixels and the canvas
defaults `source-over`, black fill, `globalAlpha = 1`, no filter. -/
def LipCtx.fresh : LipCtx :=
  { pixels := fun _ _ => Rgba.transparent
    gco := .sourceOver
    fillStyle := "#000000"
    alpha := 1
    filt := .noFilter }

/-- Apply the context's current `filter` to a source image; the `blur(r)`
kernel is the browser's, abstracted as `G`. -/
def applyFilter (G : ℕ → Frame → Frame) (f : CanvasFilter) (img : Frame) : Frame :=
  match f with
  | .noFilter => img
  | .blur r => G r img

/-- `ctx.fill()` of a path whose coverage is `cov`: paint the current
`fillStyle` at `globalAlpha` scaled by the coverage, pass it through the
current filter, and composite it per the current operation. -/
def LipCtx.fillPath (G : ℕ → Frame → Frame) (ctx : LipCtx) (cov : Mask) : LipCtx :=
  let col := parseCSSColor ctx.fillStyle
  let src : Frame := fun x y => ⟨col.r, col.g, col.b, ctx.alpha * cov x y⟩
  let src := applyFilter G ctx.filt src
  { ctx with pixels := fun x y => pdCompose ctx.gco (src x y) (ctx.pixels x y) }

/-- `ctx.fillRect(0, 0, width, height)`: a fill with full coverage. -/
def LipCtx.fillRect (G : ℕ → Frame → Frame) (ctx : LipCtx) : LipCtx :=
  ctx.fillPath G (fun _ _ => 1)

/-- State of the main canvas context (`this.ctx`); its `fillStyle` and
`filter` are never touched by the lipstick pipeline and are omitted. -/
structure Ctx where
  pixels : Frame
  gco : CompOp
  alpha : ℚ

/-- `this.ctx.drawImage(img, 0, 0)`: composite the image per the current
operation, with source alpha scaled by `globalAlpha`. -/
def drawImage (ctx : Ctx) (img : Frame) : Ctx :=
  { ctx with
    pixels := fun x y =>
      let s := img x y
      pdCompose ctx.gco ⟨s.r, s.g, s.b, s.a * ctx.alpha⟩ (ctx.pixels x y) }

/-- `this.ctx.clearRect(0, 0, width, height)`: every pixel transparent. -/
def clearRect (ctx : Ctx) : Ctx :=
  { ctx with pixels := fun _ _ => Rgba.transparent }

/-! ## Application state and the lipstick pipeline -/

/-- The JS failures relevant to this pipeline.  `typeError` is the
runtime `TypeError` thrown by reading a property of `undefined`; the
structured kinds `invalidLandmarkIndex` and `invalidColor` are named by
the specification's error design. -/
inductive JsErr where
  | typeError
  | invalidLandmarkIndex
  | invalidColor
deriving DecidableEq

/-- The style-holding fields of `ARLipstickApp`. -/
structure AppState where
  currentColor : String
  opacity : ℚ
  blur : ℕ
  isLipstickEnabled : Bool

/-- The constructor defaults: `'#FF6B6B'`, `0.7`, `1`, `true`. -/
def initialState : AppState :=
  { currentColor := "#FF6B6B", opacity := 7 / 10, blur := 1, isLipstickEnabled := true }

/-- `this.lipLandmarks.outerLip`. -/
def outerLip : List Nat :=
  [61, 84, 17, 314, 405, 320, 307, 375, 321, 308, 324, 318,
   13, 82, 81, 80, 78, 95, 88, 178, 87, 14, 317, 402, 318, 324]

/-- `this.lipLandmarks.innerLip`. -/
def innerLip : List Nat :=
  [78, 95, 88, 178, 87, 14, 317, 402, 318, 324, 308, 324,
   318, 317, 14, 87, 178, 88, 95, 78]

/-- `this.lipLandmarks.upperLip`. -/
def upperLip : List Nat := [61, 84, 17, 314, 405, 320, 307, 375, 321, 308]

/-- `this.lipLandmarks.lowerLip`. -/
def lowerLip : List Nat := [78, 95, 88, 178, 87, 14, 317, 402, 318, 324]

/-- `landmarks[i]` followed by `.x * canvasWidth` / `.y * canvasHeight`:
an in-range index maps the landmark to pixel space; an out-of-range index
yields `undefined`, and the property read throws a `TypeError`. -/
def toPixel (lm : List Landmark) (w h : ℚ) (i : Nat) : Except JsErr Pt :=
  match lm[i]? with
  | some p => .ok ⟨p.x * w, p.y * h⟩
  | none => .error .typeError

/-- The `moveTo` / `lineTo` loop of `drawLipContour`: map every region
index to pixel space in order, stopping at the first thrown error. -/
def mapPoints (lm : List Landmark) (w h : ℚ) : List Nat → Except JsErr (List Pt)
  | [] => .ok []
  | i :: rest =>
    match toPixel lm w h i with
    | .error e => .error e
    | .ok p =>
      match mapPoints lm w h rest with
      | .error e => .error e
      | .ok ps => .ok (p :: ps)

/-- `ARLipstickApp.drawLipContour` on a fresh off-screen canvas: an empty
index list returns with nothing drawn (a zero mask); otherwise the mapped
points form a closed path (`closePath`) filled by the canvas default
non-zero winding rule, giving the coverage mask of that polygon. -/
def drawLipContour (lm : List Landmark) (idxs : List Nat) (w h : ℚ) :
    Except JsErr Mask :=
  match idxs with
  | [] => .ok (fun _ _ => 0)
  | _ :: _ =>
    match mapPoints lm w h idxs with
    | .error e => .error e
    | .ok pts => .ok (fun x y => if winding pts ⟨x, y⟩ ≠ 0 then 1 else 0)

/-- Polygon obtained by following the spec's words: map each of the
region's indices through the landmark frame and scale by the canvas
dimensions (total lookup; meaningful under the in-range constraint). -/
def specPolygon (lm : List Landmark) (idxs : List Nat) (w h : ℚ) : List Pt :=
  idxs.map (fun i => ⟨(lm.getD i ⟨0, 0⟩).x * w, (lm.getD i ⟨0, 0⟩).y * h⟩)

/-- The compositing steps of `ARLipstickApp.drawLipstick` after the
contour is drawn: `source-in` color fill at `globalAlpha = opacity` on
the lip canvas, the conditional `filter` assignment, then the
`multiply`-blended `drawImage` at `globalAlpha = opacity` on the main
context, and finally the reset to `source-over` / `globalAlpha = 1`. -/
def composite (G : ℕ → Frame → Frame) (st : AppState) (cov : Mask) (ctx : Ctx) : Ctx :=
  let lip1 := LipCtx.fresh.fillPath G cov
  let lip2 := { lip1 with gco := .sourceIn, fillStyle := st.currentColor, alpha := st.opacity }
  let lip3 := lip2.fillRect G
  let lip4 := if 0 < st.blur then { lip3 with filt := .blur st.blur } else lip3
  let ctx1 := { ctx with gco := .multiply, alpha := st.opacity }
  let ctx2 := drawImage ctx1 lip4.pixels
  { ctx2 with gco := .sourceOver, alpha := 1 }

/-- `ARLipstickApp.drawLipstick`: rasterize the outer lip region on the
off-screen canvas, then run the compositing steps; a landmark-indexing
`TypeError` propagates before the main context is touched. -/
def drawLipstick (G : ℕ → Frame → Frame) (st : AppState) (lm : List Landmark)
    (w h : ℚ) (ctx : Ctx) : Except JsErr Ctx :=
  match drawLipContour lm outerLip w h with
  | .error e => .error e
  | .ok cov => .ok (composite G st cov ctx)

/-- The `isLipstickEnabled` guard of `processFaceMeshResults` around the
draw call: the destination is handed back untouched when disabled. -/
def compositeStep (G : ℕ → Frame → Frame) (st : AppState) (lm : List Landmark)
    (w h : ℚ) (ctx : Ctx) : Except JsErr Ctx :=
  if st.isLipstickEnabled then drawLipstick G st lm w h ctx else .ok ctx

/-- The detector callback payload: `results.multiFaceLandmarks`, which
may be absent (`none`) or hold a list of per-face landmark frames. -/
structure Results where
  multiFaceLandmarks : Option (List (List Landmark))

/-- `ARLipstickApp.processFaceMeshResults`: clear the canvas; when the
face list is nonempty take the first face and, if lipstick is enabled,
draw it; otherwise leave the cleared canvas. -/
def processFaceMeshResults (G : ℕ → Frame → Frame) (st : AppState) (w h : ℚ)
    (res : Results) (ctx : Ctx) : Except JsErr Ctx :=
  let ctx := clearRect ctx
  match res.multiFaceLandmarks with
  | some (lm :: _) => compositeStep G st lm w h ctx
  | _ => .ok ctx

/-- Modelled from the spec: the `FrameController` state machine of §4.4
(`Idle` / `Active` / `NoFace`).  The source keeps no explicit state
variable; the state after a processed result is determined by the face
count exactly as the spec describes. -/
inductive ControllerState where
  | Idle
  | Active
  | NoFace
deriving DecidableEq

/-- Modelled from the spec: the controller state after `onResult`. -/
def stateAfterResult (res : Results) : ControllerState :=
  match res.multiFaceLandmarks with
  | some (_ :: _) => .Active
  | _ => .NoFace

/-- `ARLipstickApp.selectPresetColor`: unconditionally store the given
color string and enable the lipstick (the DOM status update has no
bearing on the style state). -/
def selectPresetColor (st : AppState) (color : String) : AppState :=
  { st with currentColor := color, isLipstickEnabled := true }

/-- A concrete blur semantics usable to instantiate `G`. -/
def idBlur : ℕ → Frame → Frame := fun _ f => f

/-- A concrete main-canvas context whose pixels are all opaque white. -/
def whiteCtx : Ctx := ⟨fun _ _ => Rgba.white, .sourceOver, 1⟩

/-! ## Claim theorems -/

/-- C6, counterexample: the claim "a malformed color string is rejected,
the previous style is kept, and an `InvalidColor` error is surfaced" is
false on the code.  `"not-a-color"` is malformed (`hexToRgb` rejects it),
yet `selectPresetColor` stores it, replacing the previous color
`"#FF6B6B"`, and its result type offers no error at all. -/
theorem selectPresetColor_accepts_malformed :
    hexToRgb "not-a-color" = none ∧
    (selectPresetColor initialState "not-a-color").currentColor = "not-a-color" ∧
    (selectPresetColor initialState "not-a-color").currentColor ≠
      initialState.currentColor := by
  refine ⟨rfl, rfl, ?_⟩
  decide

/-- C6, amended: `selectPresetColor` performs no validation.  Even for a
malformed color string it unconditionally stores the string as the
current color and enables the lipstick, leaving opacity and blur
unchanged; no `InvalidColor` error is raised. -/
theorem selectPresetColor_no_validation (st : AppState) (c : String)
    (hmal : hexToRgb c = none) :
    (selectPresetColor st c).currentColor = c ∧
    (selectPresetColor st c).isLipstickEnabled = true ∧
    (selectPresetColor st c).opacity = st.opacity ∧
    (selectPresetColor st c).blur = st.blur := by
  exact ⟨rfl, rfl, rfl, rfl⟩

/-- C6, witness for the amended theorem at the malformed string `"zz"`. -/
theorem selectPresetColor_no_validation_witness :
    (selectPresetColor initialState "zz").currentColor = "zz" ∧
    (selectPresetColor initialState "zz").isLipstickEnabled = true ∧
    (selectPresetColor initialState "zz").opacity = initialState.opacity ∧
    (selectPresetColor initialState "zz").blur = initialState.blur :=
  selectPresetColor_no_validation initialState "zz" rfl

/-- C7: when `isLipstickEnabled` is false the compositing step is a
no-op — the destination context comes back bit-identical, with no
error. -/
theorem compositeStep_disabled_noop (G : ℕ → Frame → Frame) (st : AppState)
    (lm : List Landmark) (w h : ℚ) (ctx : Ctx)
    (hdis : st.isLipstickEnabled = false) :
    compositeStep G st lm w h ctx = .ok ctx := by
  simp [compositeStep, hdis]

/-- C7, witness: a disabled style leaves a concrete white destination
untouched. -/
theorem compositeStep_disabled_noop_witness :
    compositeStep idBlur { initialState with isLipstickEnabled := false }
      [] 1 1 whiteCtx = .ok whiteCtx :=
  compositeStep_disabled_noop idBlur _ [] 1 1 whiteCtx rfl

/-- C8: a result with an empty face list clears the destination frame
(every pixel transparent), raises no error, and puts the controller in
the `NoFace` state. -/
theorem processResults_noFace_clears (G : ℕ → Frame → Frame) (st : AppState)
    (w h : ℚ) (res : Results) (ctx : Ctx)
    (hres : res.multiFaceLandmarks = some []) :
    processFaceMeshResults G st w h res ctx = .ok (clearRect ctx) ∧
    (clearRect ctx).pixels = (fun _ _ => Rgba.transparent) ∧
    stateAfterResult res = .NoFace := by
  refine ⟨?_, rfl, ?_⟩
  · simp [processFaceMeshResults, hres]
  · simp [stateAfterResult, hres]

/-- C8, witness at a concrete empty-face result on a white canvas. -/
theorem processResults_noFace_clears_witness :
    processFaceMeshResults idBlur initialState 1 1 ⟨some []⟩ whiteCtx =
      .ok (clearRect whiteCtx) ∧
    (clearRect whiteCtx).pixels = (fun _ _ => Rgba.transparent) ∧
    stateAfterResult ⟨some []⟩ = .NoFace :=
  processResults_noFace_clears idBlur initialState 1 1 ⟨some []⟩ whiteCtx rfl

/-- C10: every completed run of `drawLipstick` hands back a context whose
compositing state is reset to the canvas defaults: `source-over` and
`globalAlpha = 1`.  The `multiply` mode and the reduced alpha never leak
into later drawing. -/
theorem drawLipstick_resets_ctx (G : ℕ → Frame → Frame) (st : AppState)
    (lm : List Landmark) (w h : ℚ) (ctx ctx' : Ctx)
    (hok : drawLipstick G st lm w h ctx = .ok ctx') :
    ctx'.gco = .sourceOver ∧ ctx'.alpha = 1 := by
  cases hcov : drawLipContour lm outerLip w h with
  | error e => simp [drawLipstick, hcov] at hok
  | ok cov =>
    simp [drawLipstick, hcov] at hok
    subst hok
    exact ⟨rfl, rfl⟩

/-- A concrete landmark frame long enough for every outer-lip index. -/
def lm406 : List Landmark := List.replicate 406 ⟨0, 0⟩

/-- A character matched by the lowercase-only hex class `[a-f0-9]`. -/
def isLowerHexDig (c : Char) : Bool :=
  ('0' ≤ c && c ≤ '9') || ('a' ≤ c && c ≤ 'f')

/-- List-level validity: exactly `'#'` followed by six lowercase hex
digits. -/
def validLowerColorL : List Char → Bool
  | [c0, c1, c2, c3, c4, c5, c6] =>
    c0 == '#' && isLowerHexDig c1 && isLowerHexDig c2 && isLowerHexDig c3 &&
      isLowerHexDig c4 && isLowerHexDig c5 && isLowerHexDig c6
  | _ => false

/-- A valid 6-hex-digit color string with leading `'#'` whose hex digits
are all lowercase (or numeric). -/
def validLowerColor (s : String) : Bool := validLowerColorL s.data

/-- The accumulator of `hexAux` is a suffix it never touches. -/
theorem hexAux_acc : ∀ (fuel n : ℕ) (acc : List Char),
    hexAux fuel n acc = hexAux fuel n [] ++ acc := by
  intro fuel
  induction fuel with
  | zero => intro n acc; rfl
  | succ f ih =>
    intro n acc
    by_cases hn : n < 16
    · simp [hexAux, hn]
    · simp only [hexAux, if_neg hn]
      rw [ih (n / 16) (Nat.digitChar (n % 16) :: acc),
        ih (n / 16) [Nat.digitChar (n % 16)]]
      simp

/-- Any sufficient fuel computes the same digit string. -/
theorem hexAux_fuel : ∀ (n f g : ℕ), n < f → n < g → ∀ acc : List Char,
    hexAux f n acc = hexAux g n acc := by
  intro n
  induction n using Nat.strong_induction_on with
  | _ n ih =>
    intro f g hf hg acc
    cases f with
    | zero => omega
    | succ f' =>
      cases g with
      | zero => omega
      | succ g' =>
        by_cases hn : n < 16
        · simp [hexAux, hn]
        · simp only [hexAux, if_neg hn]
          have hd : n / 16 < n := Nat.div_lt_self (by omega) (by omega)
          exact ih (n / 16) hd f' g' (by omega) (by omega) _

/-- Peeling the least-significant hex digit off a positive number. -/
theorem jsHexString_step (m d : ℕ) (hm : 0 < m) (hd : d < 16) :
    jsHexString (16 * m + d) = jsHexString m ++ [Nat.digitChar d] := by
  unfold jsHexString
  have h1 : ¬ (16 * m + d < 16) := by omega
  have hdiv : (16 * m + d) / 16 = m := by omega
  have hmod : (16 * m + d) % 16 = d := by omega
  simp only [hexAux, if_neg h1, hdiv, hmod]
  rw [hexAux_acc]
  congr 1
  exact hexAux_fuel m (16 * m + d) (m + 1) (by omega) (by omega) []

/-- A lowercase hex digit is its own `Nat.digitChar` image under
`parseInt`'s digit value, and that value is below 16. -/
theorem digitChar_hexVal (ch : Char) (h : isLowerHexDig ch = true) :
    Nat.digitChar (hexVal ch) = ch ∧ hexVal ch < 16 := by
  have hc : Char.ofNat ch.toNat = ch := Char.ofNat_toNat ch
  simp only [isLowerHexDig, Bool.or_eq_true, Bool.and_eq_true,
    decide_eq_true_eq] at h
  rcases h with ⟨h1, h2⟩ | ⟨h1, h2⟩
  · have hl : 48 ≤ ch.toNat := h1
    have hr : ch.toNat ≤ 57 := h2
    set n := ch.toNat with hn
    interval_cases n <;> (rw [← hc]; exact ⟨by decide, by decide⟩)
  · have hl : 97 ≤ ch.toNat := h1
    have hr : ch.toNat ≤ 102 := h2
    set n := ch.toNat with hn
    interval_cases n <;> (rw [← hc]; exact ⟨by decide, by decide⟩)

/-- A lowercase hex digit is accepted by the case-insensitive class. -/
theorem isHexDig_of_lower (ch : Char) (h : isLowerHexDig ch = true) :
    isHexDig ch = true := by
  simp only [isLowerHexDig, isHexDig, Bool.or_eq_true] at h ⊢
  tauto

/-- The compositing result never depends on the blur radius or on the
blur kernel: the `filter` assignment happens after the last drawing
operation on the lip canvas, so no drawing ever runs with a blur set. -/
theorem composite_blur_indep (G G' : ℕ → Frame → Frame) (st : AppState)
    (cov : Mask) (ctx : Ctx) :
    composite G st cov ctx = composite G' { st with blur := 0 } cov ctx := by
  have h4 : ∀ (b : ℕ) (l : LipCtx),
      (if 0 < b then { l with filt := CanvasFilter.blur b } else l).pixels =
        l.pixels := by
    intro b l
    split <;> rfl
  simp only [composite, h4]
  rfl

/-- C2 (code bug): for every blur radius, every blur kernel, every
style, every landmark frame and every destination, `drawLipstick`
produces exactly the output of the blur-0 pipeline — the
`lipCtx.filter = blur(..)` assignment comes after the last drawing
operation on the lip canvas, so it affects nothing and the rendered
overlay never differs from the unblurred overlay, contrary to the
claim (and to the code's own "Apply blur effect" comment). -/
theorem drawLipstick_blur_never_applied (G G' : ℕ → Frame → Frame)
    (st : AppState) (lm : List Landmark) (w h : ℚ) (ctx : Ctx) :
    drawLipstick G st lm w h ctx =
      drawLipstick G' { st with blur := 0 } lm w h ctx := by
  unfold drawLipstick
  cases hcov : drawLipContour lm outerLip w h with
  | error e => rfl
  | ok cov => exact congrArg Except.ok (composite_blur_indep G G' st cov ctx)

/-- `mapPoints` throws the JS `TypeError` as soon as any region index is
out of range of the landmark frame. -/
theorem mapPoints_oob (lm : List Landmark) (w h : ℚ) :
    ∀ idxs : List Nat, (∃ i ∈ idxs, lm.length ≤ i) →
      mapPoints lm w h idxs = .error .typeError := by
  intro idxs
  induction idxs with
  | nil => rintro ⟨i, hi, _⟩; simp at hi
  | cons j rest ih =>
    rintro ⟨i, hi, hlen⟩
    rcases List.mem_cons.mp hi with rfl | hmem
    · simp [mapPoints, toPixel, List.getElem?_eq_none hlen]
    · rcases Nat.lt_or_ge j lm.length with hj | hj
      · simp [mapPoints, toPixel, List.getElem?_eq_getElem hj,
          ih ⟨i, hmem, hlen⟩]
      · simp [mapPoints, toPixel, List.getElem?_eq_none hj]

/-- C5, counterexample: on an empty landmark frame the outer-lip region
is out of range, and rasterization fails with the JS `TypeError` of an
`undefined` property access — not with the structured
`InvalidLandmarkIndex` the claim names. -/
theorem drawLipContour_oob_cex :
    drawLipContour ([] : List Landmark) outerLip 1 1 = .error .typeError ∧
    drawLipContour ([] : List Landmark) outerLip 1 1 ≠
      .error .invalidLandmarkIndex := by
  have h : drawLipContour ([] : List Landmark) outerLip 1 1 =
      .error .typeError := rfl
  refine ⟨h, ?_⟩
  rw [h]
  simp

/-- C5, amended: whenever the region references an index not present in
the landmark frame, rasterization fails — but with the unstructured JS
`TypeError` of reading `.x` on `undefined`, not with a structured
`InvalidLandmarkIndex` error. -/
theorem drawLipContour_oob_typeError (lm : List Landmark) (idxs : List Nat)
    (w h : ℚ) (hoob : ∃ i ∈ idxs, lm.length ≤ i) :
    drawLipContour lm idxs w h = .error .typeError := by
  cases idxs with
  | nil => rcases hoob with ⟨i, hi, _⟩; simp at hi
  | cons j rest => simp [drawLipContour, mapPoints_oob lm w h _ hoob]

/-- C5, witness for the amended theorem: the empty frame misses outer-lip
index 61, and the draw fails with the `TypeError`. -/
theorem drawLipContour_oob_typeError_witness :
    (∃ i ∈ outerLip, ([] : List Landmark).length ≤ i) ∧
    drawLipContour ([] : List Landmark) outerLip 1 1 = .error .typeError :=
  ⟨⟨61, by decide, by decide⟩,
    drawLipContour_oob_typeError [] outerLip 1 1 ⟨61, by decide, by decide⟩⟩

/-- Rendering starts by clearing the canvas, so the drawn result depends
on the incoming canvas only through fields the pipeline overwrites. -/
theorem drawLipstick_cleared_indep (G : ℕ → Frame → Frame) (st : AppState)
    (lm : List Landmark) (w h : ℚ) (c c' : Ctx) :
    drawLipstick G st lm w h (clearRect c) =
      drawLipstick G st lm w h (clearRect c') := rfl

/-- C9: processing the same result twice with the same style reproduces
the same output frame — the per-frame render is a function of the
landmark input and the style, not of the previous canvas contents. -/
theorem processResults_idempotent (G : ℕ → Frame → Frame) (st : AppState)
    (w h : ℚ) (res : Results) (ctx f : Ctx)
    (hok : processFaceMeshResults G st w h res ctx = .ok f) :
    processFaceMeshResults G st w h res f = .ok f := by
  obtain ⟨mfl⟩ := res
  cases mfl with
  | none =>
    simp [processFaceMeshResults] at hok ⊢
    rw [← hok]
    rfl
  | some faces =>
    cases faces with
    | nil =>
      simp [processFaceMeshResults] at hok ⊢
      rw [← hok]
      rfl
    | cons lm rest =>
      simp only [processFaceMeshResults, compositeStep] at hok ⊢
      cases henb : st.isLipstickEnabled with
      | false =>
        simp only [henb, if_neg Bool.false_ne_true] at hok ⊢
        simp only [Except.ok.injEq] at hok ⊢
        rw [← hok]
        rfl
      | true =>
        simp only [henb, if_pos rfl] at hok ⊢
        rw [drawLipstick_cleared_indep G st lm w h f ctx]
        exact hok

/-- The canvas default fill color parses to black. -/
theorem hexBlack : hexToRgb "#000000" = some ⟨0, 0, 0⟩ := rfl

/-- When every region index is in range, the `moveTo`/`lineTo` loop maps
the indices to exactly the pixel-space polygon the spec describes. -/
theorem mapPoints_in_range (lm : List Landmark) (w h : ℚ) :
    ∀ idxs : List Nat, (∀ i ∈ idxs, i < lm.length) →
      mapPoints lm w h idxs = .ok (specPolygon lm idxs w h) := by
  intro idxs
  induction idxs with
  | nil => intro _; rfl
  | cons j rest ih =>
    intro hR
    have hj : j < lm.length := hR j (List.mem_cons_self j rest)
    have hrest := ih (fun i hi => hR i (List.mem_cons_of_mem j hi))
    simp [mapPoints, toPixel, specPolygon, List.getElem?_eq_getElem hj,
      List.getD_eq_getElem lm ⟨0, 0⟩ hj, hrest]

/-- C4: for a region whose indices are all in range, rasterization
succeeds, and (away from the polygon boundary) the produced mask has
coverage 1 exactly at the points strictly inside the closed polygon
through the scaled landmark points — filled by the non-zero winding
rule — and coverage 0 exactly at the points strictly outside it. -/
theorem rasterize_inside_outside (lm : List Landmark) (idxs : List Nat)
    (w h x y : ℚ) (hR : ∀ i ∈ idxs, i < lm.length)
    (hb : ¬ onBoundary (specPolygon lm idxs w h) ⟨x, y⟩) :
    ∃ mask, drawLipContour lm idxs w h = .ok mask ∧
      (mask x y = 1 ↔ strictlyInside (specPolygon lm idxs w h) ⟨x, y⟩) ∧
      (mask x y = 0 ↔ strictlyOutside (specPolygon lm idxs w h) ⟨x, y⟩) := by
  cases idxs with
  | nil =>
    refine ⟨fun _ _ => 0, rfl, ?_, ?_⟩
    · simp [strictlyInside, specPolygon, winding, closedEdges]
    · simp [strictlyOutside, specPolygon, winding, closedEdges]
      exact hb
  | cons j rest =>
    have hmp := mapPoints_in_range lm w h (j :: rest) hR
    refine ⟨fun px py =>
        if winding (specPolygon lm (j :: rest) w h) ⟨px, py⟩ ≠ 0 then 1 else 0,
      by simp [drawLipContour, hmp], ?_, ?_⟩
    · by_cases hwind : winding (specPolygon lm (j :: rest) w h) ⟨x, y⟩ ≠ 0
      · simp [hwind, strictlyInside, hb]
      · simp [hwind, strictlyInside, hb]
    · by_cases hwind : winding (specPolygon lm (j :: rest) w h) ⟨x, y⟩ ≠ 0
      · simp [hwind, strictlyOutside, hb]
      · simp only [ne_eq, not_not] at hwind
        simp [hwind, strictlyOutside, hb]

/-- A concrete four-landmark frame whose scaled polygon is the square
with corners (0,0), (2,0), (2,2), (0,2). -/
def sqLm : List Landmark := [⟨0, 0⟩, ⟨1, 0⟩, ⟨1, 1⟩, ⟨0, 1⟩]

/-- C4, witness: on the concrete square region the rasterized mask has
coverage 1 at the interior point (1,1). -/
theorem rasterize_inside_outside_witness :
    (∀ i ∈ [0, 1, 2, 3], i < sqLm.length) ∧
    ∃ mask, drawLipContour sqLm [0, 1, 2, 3] 2 2 = .ok mask ∧
      mask 1 1 = 1 ∧ strictlyInside (specPolygon sqLm [0, 1, 2, 3] 2 2) ⟨1, 1⟩ := by
  have hR : ∀ i ∈ [0, 1, 2, 3], i < sqLm.length := by decide
  have hpoly : specPolygon sqLm [0, 1, 2, 3] 2 2 =
      [⟨0 * 2, 0 * 2⟩, ⟨1 * 2, 0 * 2⟩, ⟨1 * 2, 1 * 2⟩, ⟨0 * 2, 1 * 2⟩] := rfl
  have hb : ¬ onBoundary (specPolygon sqLm [0, 1, 2, 3] 2 2) ⟨1, 1⟩ := by
    rw [hpoly]
    norm_num [onBoundary, closedEdges, onSegment, cross2]
  have hin : strictlyInside (specPolygon sqLm [0, 1, 2, 3] 2 2) ⟨1, 1⟩ := by
    refine ⟨?_, hb⟩
    rw [hpoly]
    norm_num [winding, closedEdges, edgeWind, cross2]
  obtain ⟨mask, hmask, hiff, _⟩ :=
    rasterize_inside_outside sqLm [0, 1, 2, 3] 2 2 1 1 hR hb
  exact ⟨hR, mask, hmask, hiff.mpr hin, hin⟩

/-- C3, counterexample: `"#AB0000"` is a valid 6-hex-digit color (the
case-insensitive regex accepts it), but the round trip returns the
lowercase `"#ab0000"`, which differs from the input — JS `toString(16)`
emits lowercase digits. -/
theorem hexRoundTrip_cex :
    hexToRgb "#AB0000" = some ⟨171, 0, 0⟩ ∧
    rgbToHex 171 0 0 = "#ab0000" ∧ "#ab0000" ≠ "#AB0000" := by
  refine ⟨rfl, rfl, ?_⟩
  decide

/-- C3, amended: for every valid 6-hex-digit color string with leading
`'#'` whose hex digits are all lowercase (or numeric), converting with
`hexToRgb` and back with `rgbToHex` returns exactly the input string. -/
theorem hexRoundTrip_lower (s : String) (hv : validLowerColor s = true) :
    ∃ c, hexToRgb s = some c ∧ rgbToHex c.r c.g c.b = s := by
  obtain ⟨l⟩ := s
  rcases l with _ | ⟨c0, _ | ⟨c1, _ | ⟨c2, _ | ⟨c3, _ | ⟨c4, _ | ⟨c5, _ |
    ⟨c6, _ | ⟨c7, t⟩⟩⟩⟩⟩⟩⟩⟩
  · exact Bool.noConfusion hv
  · exact Bool.noConfusion hv
  · exact Bool.noConfusion hv
  · exact Bool.noConfusion hv
  · exact Bool.noConfusion hv
  · exact Bool.noConfusion hv
  · exact Bool.noConfusion hv
  case mk.cons.cons.cons.cons.cons.cons.cons.nil =>
    simp only [validLowerColor, validLowerColorL, Bool.and_eq_true,
      beq_iff_eq] at hv
    obtain ⟨⟨⟨⟨⟨⟨h0, h1⟩, h2⟩, h3⟩, h4⟩, h5⟩, h6⟩ := hv
    subst h0
    have e1 := isHexDig_of_lower c1 h1
    have e2 := isHexDig_of_lower c2 h2
    have e3 := isHexDig_of_lower c3 h3
    have e4 := isHexDig_of_lower c4 h4
    have e5 := isHexDig_of_lower c5 h5
    have e6 := isHexDig_of_lower c6 h6
    obtain ⟨hd1, hb1⟩ := digitChar_hexVal c1 h1
    obtain ⟨hd2, hb2⟩ := digitChar_hexVal c2 h2
    obtain ⟨hd3, hb3⟩ := digitChar_hexVal c3 h3
    obtain ⟨hd4, hb4⟩ := digitChar_hexVal c4 h4
    obtain ⟨hd5, hb5⟩ := digitChar_hexVal c5 h5
    obtain ⟨hd6, hb6⟩ := digitChar_hexVal c6 h6
    refine ⟨⟨hexPair c1 c2, hexPair c3 c4, hexPair c5 c6⟩, ?_, ?_⟩
    · simp [hexToRgb, sixHex, e1, e2, e3, e4, e5, e6]
    · unfold rgbToHex hexPair
      have hN : 2 ^ 24 + (16 * hexVal c1 + hexVal c2) * 2 ^ 16 +
          (16 * hexVal c3 + hexVal c4) * 2 ^ 8 +
          (16 * hexVal c5 + hexVal c6) =
          16 * (16 * (16 * (16 * (16 * (16 * 1 + hexVal c1) + hexVal c2) +
            hexVal c3) + hexVal c4) + hexVal c5) + hexVal c6 := by ring
      rw [hN]
      rw [jsHexString_step _ _ (by omega) hb6]
      rw [jsHexString_step _ _ (by omega) hb5]
      rw [jsHexString_step _ _ (by omega) hb4]
      rw [jsHexString_step _ _ (by omega) hb3]
      rw [jsHexString_step _ _ (by omega) hb2]
      rw [jsHexString_step 1 _ (by omega) hb1]
      simp [jsHexString, hexAux, hd1, hd2, hd3, hd4, hd5, hd6]
  case mk.cons.cons.cons.cons.cons.cons.cons.cons =>
    exact Bool.noConfusion hv

/-- C3, witness for the amended theorem at the default preset color in
lowercase. -/
theorem hexRoundTrip_lower_witness :
    ∃ c, hexToRgb "#ff6b6b" = some c ∧ rgbToHex c.r c.g c.b = "#ff6b6b" :=
  hexRoundTrip_lower "#ff6b6b" rfl

/-- C1: with blur radius 0, opacity 1, a fully covered mask and an
opaque-white destination, compositing yields at every pixel exactly the
style color (opaque): the multiply blend of white by the layer color is
the layer color, and with `a = layerAlpha * opacity = 1` the blend
formula `dst' = dst*(1-a) + (dst*layerColor)*a` collapses to the style
color. -/
theorem composite_white_full_style_color (G : ℕ → Frame → Frame)
    (st : AppState) (cov : Mask) (ctx : Ctx) (c : Rgb)
    (hc : hexToRgb st.currentColor = some c)
    (hop : st.opacity = 1) (hb : st.blur = 0)
    (hw : ∀ x y, ctx.pixels x y = Rgba.white)
    (hcov : ∀ x y, cov x y = 1) (x y : ℚ) :
    (composite G st cov ctx).pixels x y =
      ⟨(c.r : ℚ) / 255, (c.g : ℚ) / 255, (c.b : ℚ) / 255, 1⟩ := by
  simp only [composite, LipCtx.fillRect, LipCtx.fillPath, LipCtx.fresh,
    applyFilter, drawImage, pdCompose, mixSrcOver, parseCSSColor, hexBlack,
    hc, hb, hop, hcov, hw, Rgba.white, Rgba.transparent, lt_self_iff_false,
    if_false]
  norm_num

/-- The reference style of the spec's scenario: pure red, opacity 1,
blur 0, enabled. -/
def redStyle : AppState :=
  { currentColor := "#ff0000", opacity := 1, blur := 0, isLipstickEnabled := true }

/-- C1, witness: compositing pure red over a white frame with full
coverage gives the red pixel. -/
theorem composite_white_full_style_color_witness :
    (composite idBlur redStyle (fun _ _ => 1) whiteCtx).pixels 0 0 =
      ⟨((255 : ℕ) : ℚ) / 255, ((0 : ℕ) : ℚ) / 255, ((0 : ℕ) : ℚ) / 255, 1⟩ :=
  composite_white_full_style_color idBlur redStyle (fun _ _ => 1) whiteCtx
    ⟨255, 0, 0⟩ rfl rfl rfl (fun _ _ => rfl) (fun _ _ => rfl) 0 0

/-- C9, witness: a second identical call on the frame produced by the
first call returns that same frame. -/
theorem processResults_idempotent_witness :
    processFaceMeshResults idBlur initialState 1 1 ⟨some []⟩
      (clearRect whiteCtx) = .ok (clearRect whiteCtx) :=
  processResults_idempotent idBlur initialState 1 1 ⟨some []⟩ whiteCtx
    (clearRect whiteCtx) rfl

set_option maxRecDepth 8000 in
/-- C10, witness: a concrete successful draw (406 landmarks cover every
outer-lip index) ends with the default compositing state. -/
theorem drawLipstick_resets_ctx_witness :
    ∃ c, drawLipstick idBlur initialState lm406 2 2 whiteCtx = .ok c ∧
      c.gco = .sourceOver ∧ c.alpha = 1 := by
  refine ⟨_, rfl, ?_⟩
  exact drawLipstick_resets_ctx idBlur initialState lm406 2 2 whiteCtx _ rfl

end BeautyAR
